import Mathlib

/-!
Shallow embedding of the ymd-bot music catalog client and orchestration
service (Go sources: the `yandex` package client, the `music` package
service, and the track helpers).  HTTP traffic is modelled by explicit
oracle parameters carrying the parse outcomes of response bodies; the
filesystem is modelled by an explicit record of directory and file paths.
All definitions are translated from the Go source.
-/

set_option autoImplicit false

namespace YmBot

/-- Error taxonomy of the client and service operations.  Each constructor
corresponds to a distinct error-producing site in the Go source
(`fmt.Errorf` calls); `ctx` models `fmt.Errorf("op: %w", err)` wrapping. -/
inductive GoErr where
  | validation (msg : String)
  | transport (msg : String)
  | protocol (status : Nat) (op : String)
  | decode (op : String)
  | notFound (msg : String)
  | resolution (msg : String)
  | ctx (op : String) (e : GoErr)
  deriving Repr, DecidableEq

/-- Internal `Track` entity (Go struct `yandex.Track`). -/
structure Track where
  ID : String
  Title : String
  Artists : List String
  DurationSeconds : Int
  CoverURL : String
  AlbumTitle : String
  deriving Repr, DecidableEq

/-- Wire DTO for one artist (Go `artistDTO`). -/
structure artistDTO where
  Name : String
  deriving Repr, DecidableEq

/-- Wire DTO for one album (Go `albumDTO`). -/
structure albumDTO where
  Title : String
  deriving Repr, DecidableEq

/-- Go `albumListDTO.Title()`: first album title or the empty string. -/
def albumListTitle : List albumDTO → String
  | [] => ""
  | a :: _ => a.Title

/-- Wire DTO for one track (Go `trackDTO`).  The `id` field is a
`json.Number`, i.e. a string under the hood; `ID` here is the string that
`t.ID.String()` returns.  A JSON track object that omits `id` decodes to
the zero value, whose string is empty. -/
structure trackDTO where
  ID : String
  Title : String
  DurationMs : Int
  Artists : List artistDTO
  Albums : List albumDTO
  CoverURI : String
  deriving Repr, DecidableEq

/-- Wire DTO for one download-info candidate (Go `downloadInfoDTO`). -/
structure downloadInfoDTO where
  URL : String
  Codec : String
  Bitrate : Int
  deriving Repr, DecidableEq

/-- Model of Go `strings.EqualFold` restricted to simple case folding:
the two strings are equal after lower-casing character by character. -/
def stringEqualFold (a b : String) : Bool :=
  a.data.map Char.toLower == b.data.map Char.toLower

/-- Model of Go `strings.TrimSpace`: drop leading and trailing whitespace
characters. -/
def trimSpace (s : String) : String :=
  ⟨((s.data.dropWhile Char.isWhitespace).reverse.dropWhile Char.isWhitespace).reverse⟩

/-- Go `Track.ArtistsString`: joined artist names, empty string for an
empty list (`strings.Join` with separator `", "`). -/
def ArtistsString (t : Track) : String :=
  if t.Artists.isEmpty then "" else String.intercalate ", " t.Artists

/-- The artist-collection loop of Go `mapTrack`: append each artist name
that is non-empty, preserving order. -/
def collectArtists : List artistDTO → List String
  | [] => []
  | a :: rest => if a.Name ≠ "" then a.Name :: collectArtists rest else collectArtists rest

/-- Go `mapTrack`: convert the wire DTO to the internal `Track`.
`DurationSeconds` is `t.DurationMs / 1000` with Go `int` division, which
truncates toward zero (`Int.tdiv`). -/
def mapTrack (t : trackDTO) : Track :=
  { ID := t.ID
    Title := t.Title
    Artists := collectArtists t.Artists
    DurationSeconds := t.DurationMs.tdiv 1000
    CoverURL := if t.CoverURI ≠ "" then "https://" ++ (t.CoverURI.replace "%%" "200x200") else ""
    AlbumTitle := albumListTitle t.Albums }

/-- Go `pickDownloadInfo`: zero value on an empty list; otherwise the
first candidate whose codec equals "mp3" case-insensitively, falling back
to the first candidate. -/
def pickDownloadInfo : List downloadInfoDTO → downloadInfoDTO
  | [] => ⟨"", "", 0⟩
  | first :: rest =>
    match (first :: rest).find? (fun i => stringEqualFold i.Codec "mp3") with
    | some i => i
    | none => first

/-- Fields of the XML download-info payload (Go local `xmlInfo`). -/
structure xmlInfo where
  Host : String
  Path : String
  TS : String
  S : String
  Region : String
  deriving Repr, DecidableEq

/-- Model of the (at most 8KB) response body read by
`resolveDownloadInfoURL`: whether the raw bytes are non-empty, and the
outcomes of the two parse attempts that the Go code runs against the same
bytes.  `jsonSrc = some s` means `json.Unmarshal` into the `{src}` struct
succeeded with `payload.Src = s`; `xmlDoc = some info` means
`xml.Unmarshal` into `xmlInfo` succeeded with the given fields. -/
structure Body where
  nonempty : Bool
  jsonSrc : Option String
  xmlDoc : Option xmlInfo
  deriving Repr, DecidableEq

/-- Go `parseDownloadInfoXML`: error on empty body or failed unmarshal or
any empty field among host/path/ts/s; otherwise assemble
`https://{host}/get-mp3/{s}/{ts}{path}` and append `?track-id={id}` when
the track id is non-empty. -/
def parseDownloadInfoXML (data : Body) (trackID : String) : Except String String :=
  if data.nonempty = false then .error "empty xml body"
  else
    match data.xmlDoc with
    | none => .error "xml unmarshal error"
    | some info =>
      if info.Host = "" ∨ info.Path = "" ∨ info.TS = "" ∨ info.S = "" then
        .error "incomplete xml fields"
      else
        let final := "https://" ++ info.Host ++ "/get-mp3/" ++ info.S ++ "/" ++ info.TS ++ info.Path
        .ok (if trackID ≠ "" then final ++ "?track-id=" ++ trackID else final)

/-- Model of the HTTP response obtained by fetching the indirection URL:
status code, `Location` header (empty string when absent, as Go
`Header.Get` returns), the final request URL (`none` when `resp.Request`
or its URL is nil), and the buffered body. -/
structure HttpResponse where
  status : Nat
  location : String
  requestURL : Option String
  body : Body
  deriving Repr, DecidableEq

/-- Go `resolveDownloadInfoURL`: fetch the indirection URL (the fetch
outcome is the `fetch` argument) and try, in order: JSON `src` field
(only when the body is non-empty, and only if `src` is non-empty), XML
assembly via `parseDownloadInfoXML`, the `Location` header, the final
request URL; otherwise fail mentioning the status code. -/
def resolveDownloadInfoURL (infoURL : String) (fetch : Except String HttpResponse)
    (trackID : String) : Except String String :=
  if infoURL = "" then .error "download info url is empty"
  else
    match fetch with
    | .error e => .error e
    | .ok resp =>
      let jsonHit : Option String :=
        if resp.body.nonempty then
          match resp.body.jsonSrc with
          | some src => if src ≠ "" then some src else none
          | none => none
        else none
      match jsonHit with
      | some src => .ok src
      | none =>
        let xmlHit : Option String :=
          match parseDownloadInfoXML resp.body trackID with
          | .ok u => if u ≠ "" then some u else none
          | .error _ => none
        match xmlHit with
        | some u => .ok u
        | none =>
          if resp.location ≠ "" then .ok resp.location
          else
            match resp.requestURL with
            | some u => .ok u
            | none => .error ("cannot resolve download url: status=" ++ toString resp.status)

/-- Wire shape of the search response (Go `trackMatches`). -/
structure trackMatches where
  Results : List trackDTO
  deriving Repr, DecidableEq

/-- Wire shape of the search response (Go `searchResult`). -/
structure searchResult where
  Tracks : trackMatches
  deriving Repr, DecidableEq

/-- Wire shape of the search response (Go `searchResponse`). -/
structure searchResponse where
  Result : searchResult
  deriving Repr, DecidableEq

/-- The search request the client builds: the query text and the computed
page parameter (the other query parameters are constants). -/
structure SearchRequest where
  text : String
  page : Int
  deriving Repr, DecidableEq

/-- Outcome of one HTTP exchange for `SearchTracks`: the status code and,
for a 200 response, the JSON decode outcome of the body (`none` when the
payload is malformed). -/
structure SearchWire where
  status : Nat
  decoded : Option searchResponse
  deriving Repr, DecidableEq

/-- The track-collection loop of Go `SearchTracks`: iterate the page of
results with index `i`, stopping as soon as `i >= limit`. -/
def collectLimited (limit : Int) (l : List trackDTO) : List Track :=
  go 0 l
where
  /-- Loop body; `i` is the running index of the `range` loop. -/
  go : Int → List trackDTO → List Track
    | _, [] => []
    | i, t :: ts => if limit ≤ i then [] else mapTrack t :: go (i + 1) ts

/-- Go `SearchTracks`.  Returns the request it issued (`none` when
validation failed before any request) together with the result.  `doReq`
is the HTTP oracle: the outcome of issuing the given request. -/
def SearchTracks (query : String) (limit offset : Int)
    (doReq : SearchRequest → Except String SearchWire) :
    Option SearchRequest × Except GoErr (List Track) :=
  if trimSpace query = "" then (none, .error (.validation "query is empty"))
  else
    let limit := if limit ≤ 0 then 10 else limit
    let offset := if offset < 0 then 0 else offset
    let page := offset.tdiv limit
    let req : SearchRequest := ⟨query, page⟩
    match doReq req with
    | .error e => (some req, .error (.transport e))
    | .ok resp =>
      if resp.status ≠ 200 then (some req, .error (.protocol resp.status "search failed"))
      else
        match resp.decoded with
        | none => (some req, .error (.decode "decode search response"))
        | some payload => (some req, .ok (collectLimited limit payload.Result.Tracks.Results))

/-- Wire shape of the track-by-id response (Go `trackResponse`). -/
structure trackResponse where
  Result : List trackDTO
  deriving Repr, DecidableEq

/-- Outcome of one HTTP exchange for `GetTrack`. -/
structure TrackWire where
  status : Nat
  decoded : Option trackResponse
  deriving Repr, DecidableEq

/-- Go `GetTrack`.  The first component counts the HTTP requests issued
(0 on the validation-failure path, 1 otherwise). -/
def GetTrack (id : String) (doReq : Except String TrackWire) :
    Nat × Except GoErr Track :=
  if id = "" then (0, .error (.validation "track id is empty"))
  else
    match doReq with
    | .error e => (1, .error (.transport e))
    | .ok resp =>
      if resp.status ≠ 200 then (1, .error (.protocol resp.status "get track failed"))
      else
        match resp.decoded with
        | none => (1, .error (.decode "decode track response"))
        | some payload =>
          match payload.Result with
          | [] => (1, .error (.notFound "track not found"))
          | t :: _ => (1, .ok (mapTrack t))

/-- Wire shape of the download-info response (Go `downloadInfoResponse`). -/
structure downloadInfoResponse where
  Result : List downloadInfoDTO
  deriving Repr, DecidableEq

/-- Outcome of one HTTP exchange for the download-info listing. -/
structure InfoWire where
  status : Nat
  decoded : Option downloadInfoResponse
  deriving Repr, DecidableEq

/-- Go `GetDownloadURL`.  `doReq` is the outcome of the download-info
request; `fetchInfo` is the outcome of fetching a given indirection URL
(used by `resolveDownloadInfoURL`).  The first component counts the HTTP
requests issued. -/
def GetDownloadURL (id : String) (doReq : Except String InfoWire)
    (fetchInfo : String → Except String HttpResponse) :
    Nat × Except GoErr String :=
  if id = "" then (0, .error (.validation "track id is empty"))
  else
    match doReq with
    | .error e => (1, .error (.transport e))
    | .ok resp =>
      if resp.status ≠ 200 then (1, .error (.protocol resp.status "download-info failed"))
      else
        match resp.decoded with
        | none => (1, .error (.decode "decode download-info"))
        | some payload =>
          match payload.Result with
          | [] => (1, .error (.notFound "download url not found"))
          | first :: rest =>
            let info := pickDownloadInfo (first :: rest)
            if info.URL = "" then (1, .error (.notFound "download url not found"))
            else
              match resolveDownloadInfoURL info.URL (fetchInfo info.URL) id with
              | .error e => (2, .error (.resolution e))
              | .ok u => (2, .ok u)

/-- Outcome of the HTTP exchange for `DownloadToFile`: status code and
whether `io.Copy` into the destination completed. -/
structure FileWire where
  status : Nat
  copyOk : Bool
  deriving Repr, DecidableEq

/-- Go `DownloadToFile`.  Filesystem writes (directory creation, file
create/truncate, streamed bytes) are elided here; the model keeps the
request count (first component) and the result.  The service-layer model
`DownloadTrack` accounts for the written paths instead. -/
def DownloadToFile (downloadURL destPath : String)
    (doReq : Except String FileWire) : Nat × Except GoErr Unit :=
  if downloadURL = "" then (0, .error (.validation "download url is empty"))
  else
    match doReq with
    | .error e => (1, .error (.transport e))
    | .ok resp =>
      if resp.status ≠ 200 then (1, .error (.protocol resp.status "download failed"))
      else if resp.copyOk then (1, .ok ())
      else (1, .error (.transport "copy interrupted"))

/-- Flat model of the filesystem: the set of directories and the set of
file paths, each as a list of absolute path strings. -/
structure FS where
  dirs : List String
  files : List String
  deriving Repr, DecidableEq

/-- Whether path `p` lies strictly under directory `dir` (its path starts
with `dir ++ "/"`). -/
def underDir (dir p : String) : Bool :=
  (dir ++ "/").data.isPrefixOf p.data

/-- Go `os.RemoveAll(dir)` on the flat filesystem model: remove the
directory itself and everything under it. -/
def removeAll (fs : FS) (dir : String) : FS :=
  { dirs := fs.dirs.filter (fun d => !(d == dir || underDir dir d)),
    files := fs.files.filter (fun f => !underDir dir f) }

/-- Outcomes of the collaborator calls that `music.Service.DownloadTrack`
makes through the `yandex.Client` interface and the OS: the metadata
lookup, the URL resolution, `os.MkdirTemp` (the fresh directory name, or
an error), the retrieval outcome, and the paths the retrieval step left
behind when it failed (the destination file may exist, truncated). -/
structure DownloadEnv where
  meta : Except GoErr Track
  url : Except GoErr String
  tmpDir : Except GoErr String
  retrieval : Except GoErr Unit
  failureWrites : List String
  deriving Repr

/-- Go `music.Service.DownloadTrack`: fetch metadata and the resolved
URL, create a fresh temporary directory, derive the destination filename
`"{artists} - {title}.mp3"`, stream the file; on retrieval failure remove
the whole temporary directory before returning the error, on success
return the metadata and the destination path. -/
def DownloadTrack (env : DownloadEnv) (fs : FS) :
    Except GoErr (Track × String) × FS :=
  match env.meta with
  | .error e => (.error (.ctx "get track meta" e), fs)
  | .ok meta =>
    match env.url with
    | .error e => (.error (.ctx "get download url" e), fs)
    | .ok _ =>
      match env.tmpDir with
      | .error e => (.error (.ctx "temp dir" e), fs)
      | .ok tmpDir =>
        let fs1 : FS := { fs with dirs := tmpDir :: fs.dirs }
        let filename := ArtistsString meta ++ " - " ++ meta.Title ++ ".mp3"
        let dest := tmpDir ++ "/" ++ filename
        match env.retrieval with
        | .error e =>
          let fs2 : FS := { fs1 with files := env.failureWrites ++ fs1.files }
          (.error (.ctx "download" e), removeAll fs2 tmpDir)
        | .ok _ => (.ok (meta, dest), { fs1 with files := dest :: fs1.files })

/-! Helper lemmas shared by the claim theorems. -/

/-- The artist-collection loop keeps exactly the non-empty names, in
order. -/
theorem collectArtists_eq_filter (l : List artistDTO) :
    collectArtists l = (l.map artistDTO.Name).filter (fun s => s != "") := by
  induction l with
  | nil => rfl
  | cons a rest ih =>
    by_cases h : a.Name = ""
    · simp [collectArtists, h, ih]
    · simp [collectArtists, h, ih, List.filter_cons]

/-- `ArtistsString` is `String.intercalate ", "` on the artist list, also
when the list is empty. -/
theorem ArtistsString_eq_intercalate (t : Track) :
    ArtistsString t = String.intercalate ", " t.Artists := by
  unfold ArtistsString
  cases h : t.Artists with
  | nil => rfl
  | cons a rest => simp [h]

/-- C8: For every trackDTO with duration field durationMs, the mapped
Track field DurationSeconds equals durationMs divided by 1000 using
truncating integer division; in particular durationMs = 185000 maps to
185 and durationMs = 1999 maps to 1 (truncation, not rounding). -/
theorem mapTrack_durationSeconds :
    (∀ t : trackDTO, (mapTrack t).DurationSeconds = t.DurationMs.tdiv 1000) ∧
    (∀ t : trackDTO, t.DurationMs = 185000 → (mapTrack t).DurationSeconds = 185) ∧
    (∀ t : trackDTO, t.DurationMs = 1999 → (mapTrack t).DurationSeconds = 1) := by
  refine ⟨fun t => rfl, fun t h => ?_, fun t h => ?_⟩
  · show t.DurationMs.tdiv 1000 = 185
    rw [h]; decide
  · show t.DurationMs.tdiv 1000 = 1
    rw [h]; decide

/-- Witness for C8 at a concrete DTO with durationMs = 1999. -/
theorem mapTrack_durationSeconds_witness :
    (mapTrack ⟨"7", "t", 1999, [], [], ""⟩).DurationSeconds = 1 :=
  mapTrack_durationSeconds.2.2 ⟨"7", "t", 1999, [], [], ""⟩ rfl

/-- C7 counterexample: the claim "every Track produced by mapTrack has a
non-empty ID" is false: a trackDTO whose id string is empty (the decode
of a JSON track object `{}` that omits the `id` field) maps to a Track
with an empty ID. -/
theorem mapTrack_ID_empty_counterexample :
    ¬ (∀ t : trackDTO, (mapTrack t).ID ≠ "") :=
  fun h => h ⟨"", "", 0, [], [], ""⟩ rfl

/-- C7 (amended): mapTrack copies the DTO id string verbatim into the
Track, so the mapped ID is non-empty exactly when the decoded DTO id
string is non-empty. -/
theorem mapTrack_ID_verbatim :
    ∀ t : trackDTO, (mapTrack t).ID = t.ID ∧ ((mapTrack t).ID ≠ "" ↔ t.ID ≠ "") :=
  fun _ => ⟨rfl, Iff.rfl⟩

/-- C10: the mapped Track Artists list is the subsequence of the DTO
artist names with empty names removed, preserving order, and
ArtistsString joins those names with ", ", returning the empty string for
an empty list. -/
theorem mapTrack_artists_spec :
    ∀ t : trackDTO,
      (mapTrack t).Artists = (t.Artists.map artistDTO.Name).filter (fun s => s != "") ∧
      (mapTrack t).Artists.Sublist (t.Artists.map artistDTO.Name) ∧
      ArtistsString (mapTrack t) =
        String.intercalate ", " ((t.Artists.map artistDTO.Name).filter (fun s => s != "")) ∧
      ((mapTrack t).Artists = [] → ArtistsString (mapTrack t) = "") := by
  intro t
  have hart : (mapTrack t).Artists = (t.Artists.map artistDTO.Name).filter (fun s => s != "") :=
    collectArtists_eq_filter t.Artists
  refine ⟨hart, ?_, ?_, ?_⟩
  · rw [hart]; exact List.filter_sublist _
  · rw [ArtistsString_eq_intercalate, hart]
  · intro h
    rw [ArtistsString_eq_intercalate, h]
    rfl

/-- Witness for C10 at a DTO whose only artist has an empty name, so the
mapped artist list is empty and ArtistsString returns "". -/
theorem mapTrack_artists_spec_witness :
    ArtistsString (mapTrack ⟨"7", "t", 0, [⟨""⟩], [], ""⟩) = "" :=
  (mapTrack_artists_spec ⟨"7", "t", 0, [⟨""⟩], [], ""⟩).2.2.2 rfl

/-- C2: an XML body whose host, path, ts, s fields are all non-empty and
a non-empty track id yield exactly
`https://{host}/get-mp3/{s}/{ts}{path}?track-id={id}` with the fields
copied verbatim; if any of the four fields is empty, the parse fails. -/
theorem parseDownloadInfoXML_spec :
    ∀ (b : Body) (info : xmlInfo) (id : String),
      b.nonempty = true → b.xmlDoc = some info →
      ((info.Host ≠ "" ∧ info.Path ≠ "" ∧ info.TS ≠ "" ∧ info.S ≠ "" ∧ id ≠ "") →
        parseDownloadInfoXML b id =
          .ok ("https://" ++ info.Host ++ "/get-mp3/" ++ info.S ++ "/" ++ info.TS ++ info.Path
            ++ "?track-id=" ++ id)) ∧
      ((info.Host = "" ∨ info.Path = "" ∨ info.TS = "" ∨ info.S = "") →
        parseDownloadInfoXML b id = .error "incomplete xml fields") := by
  intro b info id hne hxml
  constructor
  · rintro ⟨h1, h2, h3, h4, h5⟩
    simp [parseDownloadInfoXML, hne, hxml, h1, h2, h3, h4, h5]
  · intro h
    simp only [parseDownloadInfoXML, hne, Bool.true_eq_false, if_false, hxml, if_pos h]

/-- Witness for C2: host "h", path "/p", ts "123", s "sig", id "42" give
the URL from the claim. -/
theorem parseDownloadInfoXML_spec_witness :
    parseDownloadInfoXML ⟨true, none, some ⟨"h", "/p", "123", "sig", ""⟩⟩ "42" =
      .ok "https://h/get-mp3/sig/123/p?track-id=42" := by
  have h := (parseDownloadInfoXML_spec ⟨true, none, some ⟨"h", "/p", "123", "sig", ""⟩⟩
    ⟨"h", "/p", "123", "sig", ""⟩ "42" rfl rfl).1
    ⟨by decide, by decide, by decide, by decide, by decide⟩
  exact h.trans (congrArg Except.ok (by decide))

/-- C3: over every non-empty candidate list, pickDownloadInfo is total
and deterministic: it returns an element of the list, namely the first
candidate whose codec equals "mp3" case-insensitively, and the first
candidate of the list when none matches. -/
theorem pickDownloadInfo_spec :
    ∀ (first : downloadInfoDTO) (rest : List downloadInfoDTO),
      pickDownloadInfo (first :: rest) ∈ first :: rest ∧
      (∀ pre i post, first :: rest = pre ++ i :: post →
        stringEqualFold i.Codec "mp3" = true →
        (∀ j ∈ pre, stringEqualFold j.Codec "mp3" = false) →
        pickDownloadInfo (first :: rest) = i) ∧
      ((∀ j ∈ first :: rest, stringEqualFold j.Codec "mp3" = false) →
        pickDownloadInfo (first :: rest) = first) := by
  intro first rest
  have hcons : pickDownloadInfo (first :: rest) =
      match (first :: rest).find? (fun i => stringEqualFold i.Codec "mp3") with
      | some i => i
      | none => first := rfl
  refine ⟨?_, ?_, ?_⟩
  · rw [hcons]
    cases h : (first :: rest).find? (fun i => stringEqualFold i.Codec "mp3") with
    | some i => exact List.mem_of_find?_eq_some h
    | none => exact List.mem_cons_self _ _
  · intro pre i post hdec hp hpre
    have hnone : pre.find? (fun j => stringEqualFold j.Codec "mp3") = none :=
      List.find?_eq_none.mpr (fun x hx => by simp [hpre x hx])
    have hfind : (pre ++ i :: post).find? (fun j => stringEqualFold j.Codec "mp3") = some i := by
      rw [List.find?_append, hnone]
      simp [List.find?_cons, hp]
    rw [hcons, hdec, hfind]
  · intro hall
    have hfind : (first :: rest).find? (fun j => stringEqualFold j.Codec "mp3") = none :=
      List.find?_eq_none.mpr (fun x hx => by simp [hall x hx])
    rw [hcons, hfind]

/-- Witness for C3: from [aac, MP3, flac] the second candidate is chosen;
from [aac, flac] the first. -/
theorem pickDownloadInfo_spec_witness :
    pickDownloadInfo [⟨"u1", "aac", 192⟩, ⟨"u2", "MP3", 192⟩, ⟨"u3", "flac", 320⟩] =
        ⟨"u2", "MP3", 192⟩ ∧
    pickDownloadInfo [⟨"u1", "aac", 192⟩, ⟨"u3", "flac", 320⟩] = ⟨"u1", "aac", 192⟩ :=
  ⟨(pickDownloadInfo_spec ⟨"u1", "aac", 192⟩ [⟨"u2", "MP3", 192⟩, ⟨"u3", "flac", 320⟩]).2.1
      [⟨"u1", "aac", 192⟩] ⟨"u2", "MP3", 192⟩ [⟨"u3", "flac", 320⟩] rfl (by decide) (by decide),
    (pickDownloadInfo_spec ⟨"u1", "aac", 192⟩ [⟨"u3", "flac", 320⟩]).2.2 (by decide)⟩

/-- C1: the three payload shapes are tried strictly in priority order.
A body whose JSON parse yields a non-empty src resolves to that src no
matter what the XML parse or the Location header would give; the XML
result is used only when the JSON attempt missed; the Location header
and the final request URL are used only when both parses missed. -/
theorem resolveDownloadInfoURL_priority :
    ∀ (infoURL trackID : String) (resp : HttpResponse),
      infoURL ≠ "" →
      (∀ src, resp.body.nonempty = true → resp.body.jsonSrc = some src → src ≠ "" →
        resolveDownloadInfoURL infoURL (.ok resp) trackID = .ok src) ∧
      (∀ u, (resp.body.nonempty = false ∨ resp.body.jsonSrc = none ∨
          resp.body.jsonSrc = some "") →
        parseDownloadInfoXML resp.body trackID = .ok u → u ≠ "" →
        resolveDownloadInfoURL infoURL (.ok resp) trackID = .ok u) ∧
      (∀ e, (resp.body.nonempty = false ∨ resp.body.jsonSrc = none ∨
          resp.body.jsonSrc = some "") →
        parseDownloadInfoXML resp.body trackID = .error e →
        resp.location ≠ "" →
        resolveDownloadInfoURL infoURL (.ok resp) trackID = .ok resp.location) ∧
      (∀ e u, (resp.body.nonempty = false ∨ resp.body.jsonSrc = none ∨
          resp.body.jsonSrc = some "") →
        parseDownloadInfoXML resp.body trackID = .error e →
        resp.location = "" → resp.requestURL = some u →
        resolveDownloadInfoURL infoURL (.ok resp) trackID = .ok u) := by
  intro infoURL trackID resp hinfo
  obtain ⟨st, loc, rurl, ne, js, xd⟩ := resp
  refine ⟨?_, ?_, ?_, ?_⟩
  · intro src hne hjs hsrc
    dsimp only at hne hjs
    subst hne; subst hjs
    simp [resolveDownloadInfoURL, hinfo, hsrc]
  · intro u hmiss hxml hu
    dsimp only at hmiss hxml
    rcases hmiss with h | h | h <;> subst h <;>
      simp [resolveDownloadInfoURL, hinfo, hxml, hu]
  · intro e hmiss hxml hloc
    dsimp only at hmiss hxml hloc
    rcases hmiss with h | h | h <;> subst h <;>
      simp [resolveDownloadInfoURL, hinfo, hxml, hloc]
  · intro e u hmiss hxml hloc hurl
    dsimp only at hmiss hxml hloc hurl
    rcases hmiss with h | h | h <;> subst h <;>
      simp [resolveDownloadInfoURL, hinfo, hxml, hloc, hurl]

/-- Witness for C1: a body that parses both as JSON src "A" and as a
complete XML document resolves to "A", never to the XML-derived URL. -/
theorem resolveDownloadInfoURL_priority_witness :
    resolveDownloadInfoURL "http://info" (.ok ⟨200, "http://loc", some "http://req",
        ⟨true, some "A", some ⟨"h", "/p", "123", "sig", ""⟩⟩⟩) "42" = .ok "A" :=
  (resolveDownloadInfoURL_priority "http://info" "42" ⟨200, "http://loc", some "http://req",
      ⟨true, some "A", some ⟨"h", "/p", "123", "sig", ""⟩⟩⟩ (by decide)).1 "A" rfl rfl (by decide)

/-- A string with a non-empty left part stays non-empty after appending. -/
theorem append_left_ne_empty (s t : String) (hs : s ≠ "") : s ++ t ≠ "" := by
  intro h
  apply hs
  have hd := congrArg String.data h
  rw [String.data_append] at hd
  exact String.ext (List.append_eq_nil.mp hd).1

/-- A URL assembled by parseDownloadInfoXML is never the empty string
(it starts with "https://"). -/
theorem parseDownloadInfoXML_ok_ne_empty (b : Body) (id u : String)
    (h : parseDownloadInfoXML b id = .ok u) : u ≠ "" := by
  unfold parseDownloadInfoXML at h
  by_cases hne : b.nonempty = false
  · rw [if_pos hne] at h; exact absurd h (by simp)
  · rw [if_neg hne] at h
    cases hxd : b.xmlDoc with
    | none => rw [hxd] at h; exact absurd h (by simp)
    | some info =>
      rw [hxd] at h
      dsimp only at h
      by_cases hf : info.Host = "" ∨ info.Path = "" ∨ info.TS = "" ∨ info.S = ""
      · rw [if_pos hf] at h; exact absurd h (by simp)
      · rw [if_neg hf] at h
        simp only [Except.ok.injEq] at h
        subst h
        have hbase :
            ("https://" ++ info.Host ++ "/get-mp3/" ++ info.S ++ "/" ++ info.TS ++ info.Path)
              ≠ "" :=
          append_left_ne_empty _ _ (append_left_ne_empty _ _ (append_left_ne_empty _ _
            (append_left_ne_empty _ _ (append_left_ne_empty _ _
              (append_left_ne_empty _ _ (by decide))))))
        by_cases hid : id ≠ ""
        · rw [if_pos hid]
          exact append_left_ne_empty _ _ (append_left_ne_empty _ _ hbase)
        · rw [if_neg hid]
          exact hbase

/-- C9: resolution never inspects the HTTP status code except in its
final failure message: a body with a non-empty JSON src (or, when the
JSON attempt missed, XML with all four required fields) resolves to that
URL for every status code, and any successful resolution is unchanged
under replacing the status code. -/
theorem resolveDownloadInfoURL_ignores_status :
    ∀ (infoURL trackID : String) (resp : HttpResponse),
      infoURL ≠ "" →
      (∀ src n, resp.body.nonempty = true → resp.body.jsonSrc = some src → src ≠ "" →
        resolveDownloadInfoURL infoURL (.ok { resp with status := n }) trackID = .ok src) ∧
      (∀ info n, resp.body.nonempty = true → resp.body.xmlDoc = some info →
        (resp.body.jsonSrc = none ∨ resp.body.jsonSrc = some "") →
        info.Host ≠ "" → info.Path ≠ "" → info.TS ≠ "" → info.S ≠ "" →
        ∃ u, parseDownloadInfoXML resp.body trackID = .ok u ∧
          resolveDownloadInfoURL infoURL (.ok { resp with status := n }) trackID = .ok u) ∧
      (∀ n m u, resolveDownloadInfoURL infoURL (.ok { resp with status := n }) trackID = .ok u →
        resolveDownloadInfoURL infoURL (.ok { resp with status := m }) trackID = .ok u) := by
  intro infoURL trackID resp hinfo
  obtain ⟨st, loc, rurl, ne, js, xd⟩ := resp
  refine ⟨?_, ?_, ?_⟩
  · intro src n hne hjs hsrc
    dsimp only at hne hjs
    subst hne; subst hjs
    simp [resolveDownloadInfoURL, hinfo, hsrc]
  · intro info n hne hxd hjs h1 h2 h3 h4
    dsimp only at hne hxd hjs ⊢
    subst hne; subst hxd
    have hu : parseDownloadInfoXML (⟨true, js, some info⟩ : Body) trackID =
        .ok (if trackID ≠ ""
          then "https://" ++ info.Host ++ "/get-mp3/" ++ info.S ++ "/" ++ info.TS ++ info.Path
            ++ "?track-id=" ++ trackID
          else "https://" ++ info.Host ++ "/get-mp3/" ++ info.S ++ "/" ++ info.TS ++ info.Path) := by
      simp [parseDownloadInfoXML, h1, h2, h3, h4]
    generalize hgen : (if trackID ≠ ""
        then "https://" ++ info.Host ++ "/get-mp3/" ++ info.S ++ "/" ++ info.TS ++ info.Path
          ++ "?track-id=" ++ trackID
        else "https://" ++ info.Host ++ "/get-mp3/" ++ info.S ++ "/" ++ info.TS ++ info.Path) = u
      at hu
    have hune : u ≠ "" := parseDownloadInfoXML_ok_ne_empty _ _ _ hu
    refine ⟨u, hu, ?_⟩
    rcases hjs with h | h <;> subst h <;>
      simp [resolveDownloadInfoURL, hinfo, hu, hune]
  · intro n m u h
    simp only [resolveDownloadInfoURL, if_neg hinfo] at h ⊢
    repeat' split at h
    all_goals simp_all

/-- Witness for C9: a 500 response whose body is JSON with src "A" still
resolves to "A". -/
theorem resolveDownloadInfoURL_ignores_status_witness :
    resolveDownloadInfoURL "http://info"
        (.ok ⟨500, "", none, ⟨true, some "A", none⟩⟩) "42" = .ok "A" :=
  (resolveDownloadInfoURL_ignores_status "http://info" "42"
    ⟨0, "", none, ⟨true, some "A", none⟩⟩ (by decide)).1 "A" 500 rfl rfl (by decide)

/-- C5: every operation validates its input before issuing any HTTP
request: an empty (after trimming) query, an empty track id, and an empty
download URL each fail with the validation error while the model records
no issued request (`none` request / request count 0). -/
theorem validation_no_request :
    (∀ (query : String) (limit offset : Int)
        (doReq : SearchRequest → Except String SearchWire), trimSpace query = "" →
      SearchTracks query limit offset doReq = (none, .error (.validation "query is empty"))) ∧
    (∀ doReq : Except String TrackWire,
      GetTrack "" doReq = (0, .error (.validation "track id is empty"))) ∧
    (∀ (doReq : Except String InfoWire) (fetchInfo : String → Except String HttpResponse),
      GetDownloadURL "" doReq fetchInfo = (0, .error (.validation "track id is empty"))) ∧
    (∀ (destPath : String) (doReq : Except String FileWire),
      DownloadToFile "" destPath doReq = (0, .error (.validation "download url is empty"))) := by
  refine ⟨?_, ?_, ?_, ?_⟩
  · intro query limit offset doReq h
    simp [SearchTracks, h]
  · intro doReq; rfl
  · intro doReq fetchInfo; rfl
  · intro destPath doReq; rfl

/-- Witness for C5 at a whitespace-only query, empty ids and an empty
URL, with oracles that would fail loudly if consulted. -/
theorem validation_no_request_witness :
    SearchTracks " " 5 0 (fun _ => .error "net") =
      (none, .error (.validation "query is empty")) ∧
    GetTrack "" (.error "net") = (0, .error (.validation "track id is empty")) ∧
    GetDownloadURL "" (.error "net") (fun _ => .error "net") =
      (0, .error (.validation "track id is empty")) ∧
    DownloadToFile "" "/tmp/f" (.error "net") =
      (0, .error (.validation "download url is empty")) :=
  ⟨validation_no_request.1 " " 5 0 _ (by decide),
    validation_no_request.2.1 _,
    validation_no_request.2.2.1 _ _,
    validation_no_request.2.2.2 _ _⟩

/-- The collection loop keeps `min limit.toNat l.length` elements
(generalized over the running index). -/
theorem collectLimited_go_length (limit : Int) :
    ∀ (l : List trackDTO) (i : Int),
      (collectLimited.go limit i l).length = min (limit - i).toNat l.length := by
  intro l
  induction l with
  | nil => intro i; simp [collectLimited.go]
  | cons t ts ih =>
    intro i
    by_cases h : limit ≤ i
    · have h0 : (limit - i).toNat = 0 := by omega
      simp [collectLimited.go, h, h0]
    · have h1 : (limit - i).toNat = (limit - (i + 1)).toNat + 1 := by omega
      simp only [collectLimited.go, if_neg h, List.length_cons, ih (i + 1), h1]
      omega

/-- The collection loop returns `min limit.toNat l.length` tracks. -/
theorem collectLimited_length (limit : Int) (l : List trackDTO) :
    (collectLimited limit l).length = min limit.toNat l.length := by
  have h := collectLimited_go_length limit l 0
  rw [Int.sub_zero] at h
  exact h

/-- C4: with a valid query, `limit > 0` and `offset ≥ 0`, SearchTracks
issues the request for page `offset / limit` (truncating division) and a
successful result holds at most `limit` tracks, exactly
`min limit (page size)` of them; `limit ≤ 0` behaves as limit 10 and
`offset < 0` behaves as offset 0. -/
theorem SearchTracks_spec :
    (∀ (query : String) (limit offset : Int)
        (doReq : SearchRequest → Except String SearchWire),
      0 < limit → 0 ≤ offset → trimSpace query ≠ "" →
      (SearchTracks query limit offset doReq).1 = some ⟨query, offset.tdiv limit⟩ ∧
      (∀ tracks, (SearchTracks query limit offset doReq).2 = .ok tracks →
        tracks.length ≤ limit.toNat) ∧
      (∀ resp payload, doReq ⟨query, offset.tdiv limit⟩ = .ok resp → resp.status = 200 →
        resp.decoded = some payload →
        (SearchTracks query limit offset doReq).2 =
          .ok (collectLimited limit payload.Result.Tracks.Results) ∧
        (collectLimited limit payload.Result.Tracks.Results).length =
          min limit.toNat payload.Result.Tracks.Results.length)) ∧
    (∀ (query : String) (limit offset : Int)
        (doReq : SearchRequest → Except String SearchWire), limit ≤ 0 →
      SearchTracks query limit offset doReq = SearchTracks query 10 offset doReq) ∧
    (∀ (query : String) (limit offset : Int)
        (doReq : SearchRequest → Except String SearchWire), offset < 0 →
      SearchTracks query limit offset doReq = SearchTracks query limit 0 doReq) := by
  refine ⟨?_, ?_, ?_⟩
  · intro query limit offset doReq hl ho hq
    have hl0 : ¬ limit ≤ 0 := by omega
    have ho0 : ¬ offset < 0 := by omega
    refine ⟨?_, ?_, ?_⟩
    · cases hdo : doReq ⟨query, offset.tdiv limit⟩ with
      | error e => simp [SearchTracks, hq, hl0, ho0, hdo]
      | ok resp =>
        by_cases hst : resp.status = 200
        · cases hdec : resp.decoded <;> simp [SearchTracks, hq, hl0, ho0, hdo, hst, hdec]
        · simp [SearchTracks, hq, hl0, ho0, hdo, hst]
    · intro tracks htr
      cases hdo : doReq ⟨query, offset.tdiv limit⟩ with
      | error e => simp [SearchTracks, hq, hl0, ho0, hdo] at htr
      | ok resp =>
        by_cases hst : resp.status = 200
        · cases hdec : resp.decoded with
          | none => simp [SearchTracks, hq, hl0, ho0, hdo, hst, hdec] at htr
          | some payload =>
            simp [SearchTracks, hq, hl0, ho0, hdo, hst, hdec] at htr
            rw [← htr, collectLimited_length]
            exact Nat.min_le_left _ _
        · simp [SearchTracks, hq, hl0, ho0, hdo, hst] at htr
    · intro resp payload hdo hst hdec
      exact ⟨by simp [SearchTracks, hq, hl0, ho0, hdo, hst, hdec],
        collectLimited_length limit _⟩
  · intro query limit offset doReq h
    have h10 : ¬ (10 : Int) ≤ 0 := by decide
    simp [SearchTracks, h, h10]
  · intro query limit offset doReq h
    have h00 : ¬ (0 : Int) < 0 := by decide
    simp [SearchTracks, h, h00]

/-- Witness for C4 at query "q", limit 2, offset 5 and a page of three
tracks: the request carries page 2 and exactly two tracks come back. -/
theorem SearchTracks_spec_witness :
    (SearchTracks "q" 2 5 (fun _ =>
        .ok ⟨200, some ⟨⟨⟨[⟨"1", "t", 185000, [], [], ""⟩, ⟨"2", "t", 185000, [], [], ""⟩,
          ⟨"3", "t", 185000, [], [], ""⟩]⟩⟩⟩⟩)).1 = some ⟨"q", 2⟩ ∧
    (SearchTracks "q" 2 5 (fun _ =>
        .ok ⟨200, some ⟨⟨⟨[⟨"1", "t", 185000, [], [], ""⟩, ⟨"2", "t", 185000, [], [], ""⟩,
          ⟨"3", "t", 185000, [], [], ""⟩]⟩⟩⟩⟩)).2 =
      .ok (collectLimited 2 [⟨"1", "t", 185000, [], [], ""⟩, ⟨"2", "t", 185000, [], [], ""⟩,
        ⟨"3", "t", 185000, [], [], ""⟩]) ∧
    (collectLimited 2 [⟨"1", "t", 185000, [], [], ""⟩, ⟨"2", "t", 185000, [], [], ""⟩,
      ⟨"3", "t", 185000, [], [], ""⟩]).length = 2 := by
  have h := SearchTracks_spec.1 "q" 2 5 (fun _ =>
    .ok ⟨200, some ⟨⟨⟨[⟨"1", "t", 185000, [], [], ""⟩, ⟨"2", "t", 185000, [], [], ""⟩,
      ⟨"3", "t", 185000, [], [], ""⟩]⟩⟩⟩⟩) (by decide) (by decide) (by decide)
  exact ⟨h.1, (h.2.2 _ _ rfl rfl rfl).1, ((h.2.2 _ _ rfl rfl rfl).2).trans (by decide)⟩

/-- A path under a directory: `dir ++ "/" ++ f` is under `dir`. -/
theorem underDir_append (dir f : String) : underDir dir (dir ++ "/" ++ f) = true := by
  unfold underDir
  rw [ List.isPrefixOf_iff_prefix, String.data_append]
  exact List.prefix_append _ _

/-- C6: when the retrieval step of DownloadTrack fails after the
temporary directory was created, the directory and everything under it
(including any incomplete destination file) are gone from the resulting
filesystem and the wrapped error is returned; on success the returned
path is `{tmpDir}/{artists} - {title}.mp3` and the fresh directory
contains exactly that one file. -/
theorem DownloadTrack_tempdir :
    ∀ (env : DownloadEnv) (fs : FS) (meta : Track) (u tmpDir : String),
      env.meta = .ok meta → env.url = .ok u → env.tmpDir = .ok tmpDir →
      (∀ e, env.retrieval = .error e →
        tmpDir ∉ (DownloadTrack env fs).2.dirs ∧
        (∀ p ∈ (DownloadTrack env fs).2.files, underDir tmpDir p = false) ∧
        (DownloadTrack env fs).1 = .error (.ctx "download" e)) ∧
      (env.retrieval = .ok () →
        (∀ p ∈ fs.files, underDir tmpDir p = false) →
        (DownloadTrack env fs).1 =
          .ok (meta, tmpDir ++ "/" ++ (ArtistsString meta ++ " - " ++ meta.Title ++ ".mp3")) ∧
        (DownloadTrack env fs).2.files.filter (fun p => underDir tmpDir p) =
          [tmpDir ++ "/" ++ (ArtistsString meta ++ " - " ++ meta.Title ++ ".mp3")] ∧
        tmpDir ∈ (DownloadTrack env fs).2.dirs) := by
  intro env fs meta u tmpDir hm hu ht
  obtain ⟨em, eu, et, er, ew⟩ := env
  dsimp only at hm hu ht
  subst hm; subst hu; subst ht
  constructor
  · intro e her
    dsimp only at her
    subst her
    refine ⟨?_, ?_, ?_⟩
    · intro hmem
      simp [DownloadTrack, removeAll, List.mem_filter] at hmem
    · intro p hp
      simp [DownloadTrack, removeAll, List.mem_filter] at hp
      rcases hp with ⟨_, h⟩ | ⟨_, h⟩ <;> exact h
    · simp [DownloadTrack]
  · intro hok hfresh
    dsimp only at hok
    subst hok
    refine ⟨by simp [DownloadTrack], ?_, by simp [DownloadTrack]⟩
    show ((tmpDir ++ "/" ++ (ArtistsString meta ++ " - " ++ meta.Title ++ ".mp3")) ::
        fs.files).filter (fun p => underDir tmpDir p) =
      [tmpDir ++ "/" ++ (ArtistsString meta ++ " - " ++ meta.Title ++ ".mp3")]
    rw [List.filter_cons]
    simp only [underDir_append, if_pos]
    rw [List.filter_eq_nil_iff.mpr]
    intro p hp
    simp [hfresh p hp]

/-- Witness for C6: a concrete failing download leaves no trace of the
temporary directory, and a concrete successful one yields exactly the
destination file. -/
theorem DownloadTrack_tempdir_witness :
    ("/tmp/ym-bot-1" ∉
      (DownloadTrack ⟨.ok ⟨"7", "T", ["A"], 185, "", ""⟩, .ok "http://u", .ok "/tmp/ym-bot-1",
        .error (.transport "net"), ["/tmp/ym-bot-1/A - T.mp3"]⟩
        ⟨["/tmp"], ["/tmp/other"]⟩).2.dirs) ∧
    ((DownloadTrack ⟨.ok ⟨"7", "T", ["A"], 185, "", ""⟩, .ok "http://u", .ok "/tmp/ym-bot-1",
        .ok (), []⟩ ⟨["/tmp"], ["/tmp/other"]⟩).2.files.filter
          (fun p => underDir "/tmp/ym-bot-1" p) = ["/tmp/ym-bot-1/A - T.mp3"]) := by
  constructor
  · exact ((DownloadTrack_tempdir ⟨.ok ⟨"7", "T", ["A"], 185, "", ""⟩, .ok "http://u",
      .ok "/tmp/ym-bot-1", .error (.transport "net"), ["/tmp/ym-bot-1/A - T.mp3"]⟩
      ⟨["/tmp"], ["/tmp/other"]⟩ ⟨"7", "T", ["A"], 185, "", ""⟩ "http://u" "/tmp/ym-bot-1"
      rfl rfl rfl).1 (.transport "net") rfl).1
  · have h := ((DownloadTrack_tempdir ⟨.ok ⟨"7", "T", ["A"], 185, "", ""⟩, .ok "http://u",
      .ok "/tmp/ym-bot-1", .ok (), []⟩ ⟨["/tmp"], ["/tmp/other"]⟩ ⟨"7", "T", ["A"], 185, "", ""⟩
      "http://u" "/tmp/ym-bot-1" rfl rfl rfl).2 rfl (by decide)).2.1
    exact h.trans (by decide)

end YmBot
